import Mathlib

/-!
Verification of the "Labeled Table" design specified for the
isprashant/Machine-Learning repository.  The repository is a single
educational notebook whose cells call into a tabular-data library
(DataFrame construction, label/position selection, boolean filtering,
label-aligned assignment).  The library implementation is not part of the
repository sources, so the Labeled Table component is modelled here from
the specification (spec.md §3–§4): an in-memory two-dimensional container
of scalar values addressed by row/column labels and by zero-based
position, with a distinguished "not-available" sentinel.
-/

/-- Modelled from the spec: a scalar cell value.  The design demands that a
missing value be "representable distinctly from any valid scalar (a
sentinel not-available value)", so values form a tagged union with a
dedicated `na` variant alongside integer and string scalars. -/
inductive Val where
  | na : Val
  | int : Int → Val
  | str : String → Val
  deriving Repr, DecidableEq

/-- Modelled from the spec: the error kinds of §7 — ShapeError
(length/dimension mismatch), KeyError (unknown label), IndexError
(out-of-range position), TypeError (value incompatible with a column's
scalar type). -/
inductive Err where
  | shapeError : Err
  | keyError : Err
  | indexError : Err
  | typeError : Err
  deriving Repr, DecidableEq

/-- Modelled from the spec: the Labeled Table — an ordered sequence of row
labels, an ordered sequence of column labels, and column-major storage of
the cell values (one list of cells per column label). -/
structure Table where
  rowLabels : List String
  colLabels : List String
  cols : List (List Val)
  deriving Repr, DecidableEq

/-- Modelled from the spec: a Labeled Series — one column's data paired
with its own row-label sequence. -/
structure Series where
  labels : List String
  values : List Val
  deriving Repr, DecidableEq

/-- First position of a label in a label sequence, if present. -/
def idxOf? (lbl : String) : List String → Option Nat
  | [] => none
  | x :: xs => if x = lbl then some 0 else (idxOf? lbl xs).map (· + 1)

/-- The construction invariant of §8: the column storage has one column per
column label and every column has length equal to the number of row
labels. -/
def Table.WF (t : Table) : Prop :=
  t.cols.length = t.colLabels.length ∧ ∀ c ∈ t.cols, c.length = t.rowLabels.length

instance (t : Table) : Decidable t.WF := by
  unfold Table.WF; infer_instance

def emptyTable : Table := ⟨[], [], []⟩

/-- Modelled from the spec: SelectColumn — exact label match, KeyError if
the label is absent; yields the column as a Series carrying the table's
row labels. -/
def selectColumn (t : Table) (c : String) : Except Err Series :=
  match idxOf? c t.colLabels with
  | some k =>
      match t.cols[k]? with
      | some col => .ok ⟨t.rowLabels, col⟩
      | none => .error .keyError
  | none => .error .keyError

/-- Modelled from the spec: SelectByPosition on a row range — zero-based
positional access, half-open: positions `lo`, …, `hi - 1`. -/
def selectByPositionRange (t : Table) (lo hi : Nat) : Table :=
  { rowLabels := (t.rowLabels.drop lo).take (hi - lo)
    colLabels := t.colLabels
    cols := t.cols.map (fun c => (c.drop lo).take (hi - lo)) }

/-- Modelled from the spec: SelectByLabel on a row range — label-based
access, inclusive of both endpoints; KeyError on an unmatched label. -/
def selectByLabelRange (t : Table) (lo hi : String) : Except Err Table :=
  match idxOf? lo t.rowLabels, idxOf? hi t.rowLabels with
  | some i, some j => .ok (selectByPositionRange t i (j + 1))
  | _, _ => .error .keyError

/-- Label lookup into a Series; yields the not-available sentinel when the
label is absent. -/
def Series.lookup (s : Series) (lbl : String) : Val :=
  match idxOf? lbl s.labels with
  | some i => (s.values[i]?).getD Val.na
  | none => Val.na

/-- Modelled from the spec: AssignColumn with a Series-like carrying its
own row labels — "aligns by label: values for matching row labels are
copied; row labels present in the table but absent from the incoming
series are set to not-available".  The aligned column replaces an existing
column of the same label or is appended as a new column. -/
def assignColumn (t : Table) (c : String) (s : Series) : Table :=
  let aligned := t.rowLabels.map s.lookup
  match idxOf? c t.colLabels with
  | some k => { t with cols := t.cols.set k aligned }
  | none =>
      { rowLabels := t.rowLabels
        colLabels := t.colLabels ++ [c]
        cols := t.cols ++ [aligned] }

/-- The column stored under a column label, if the label is present. -/
def colOf? (t : Table) (c : String) : Option (List Val) :=
  (idxOf? c t.colLabels).bind (fun k => t.cols[k]?)

/-- The scalar at a (row label, column label) address, if both labels
resolve and the cell exists. -/
def cellAt (t : Table) (rl c : String) : Option Val :=
  (idxOf? rl t.rowLabels).bind (fun j =>
    (colOf? t c).bind (fun col => col[j]?))

/-- Keep the entries of `l` whose position is marked true in `mask`. -/
def maskFilter (mask : List Bool) (l : List α) : List α :=
  ((l.zip mask).filter (·.2)).map (·.1)

/-- Modelled from the spec: FilterByMembership — "retains rows whose value
in the named column is a member of the given set"; KeyError when the
column label is absent. -/
def filterByMembership (t : Table) (c : String) (cands : List Val) :
    Except Err Table :=
  match idxOf? c t.colLabels with
  | none => .error .keyError
  | some k =>
      let col := (t.cols[k]?).getD []
      let mask := col.map (fun v => decide (v ∈ cands))
      .ok { rowLabels := maskFilter mask t.rowLabels
            colLabels := t.colLabels
            cols := t.cols.map (maskFilter mask) }

/-- Modelled from the spec: Transpose — swaps the row and column axes; the
cell at (row j, column k) becomes the cell at (row k, column j). -/
def transpose (t : Table) : Table :=
  { rowLabels := t.colLabels
    colLabels := t.rowLabels
    cols := (List.range t.rowLabels.length).map
      (fun j => t.cols.map (fun col => (col[j]?).getD Val.na)) }

/-- Modelled from the spec: Copy — a deep value copy, rebuilt cell by
cell. -/
def Table.copy (t : Table) : Table :=
  { rowLabels := t.rowLabels.map id
    colLabels := t.colLabels.map id
    cols := t.cols.map (List.map id) }

/-- Modelled from the spec: Construct from a uniform row-major array of
values with explicit row- and column-label sequences; ShapeError when the
supplied data length does not match the label sequences. -/
def constructArray (vals : List (List Val)) (rls cls : List String) :
    Except Err Table :=
  if vals.length = rls.length ∧ ∀ r ∈ vals, r.length = cls.length then
    .ok { rowLabels := rls
          colLabels := cls
          cols := (List.range cls.length).map
            (fun k => vals.map (fun r => (r[k]?).getD Val.na)) }
  else .error .shapeError

/-- Modelled from the spec: one entry of the dict constructor — either a
single scalar (to be broadcast) or a homogeneous column of values. -/
inductive ColInput where
  | scalar : Val → ColInput
  | seq : List Val → ColInput
  deriving Repr, DecidableEq

/-- The declared length of a dict-constructor entry: sequences carry one,
scalars do not (they broadcast to the common length). -/
def ColInput.len? : ColInput → Option Nat
  | .scalar _ => none
  | .seq vs => some vs.length

/-- Broadcast a scalar entry to a column of length `n`; a sequence entry
is its own column. -/
def ColInput.materialize (n : Nat) : ColInput → List Val
  | .scalar v => List.replicate n v
  | .seq vs => vs

/-- Modelled from the spec: Construct from a mapping of column label to
column data; scalar entries broadcast to the common sequence length,
default zero-based integer row labels; ShapeError when the sequence
entries have inconsistent lengths or no entry fixes a length. -/
def constructDict (entries : List (String × ColInput)) : Except Err Table :=
  match entries.filterMap (fun e => e.2.len?) with
  | [] => .error .shapeError
  | n :: rest =>
      if rest.all (fun m => m == n) then
        .ok { rowLabels := (List.range n).map toString
              colLabels := entries.map (·.1)
              cols := entries.map (fun e => e.2.materialize n) }
      else .error .shapeError

/-- Modelled from the spec: bulk column assignment by label with a raw
array (`SetByLabel(all rows, column_label, array)`): KeyError on an
unknown column label, ShapeError on a length mismatch; the length check
precedes every write, as §7 demands all-or-nothing behaviour. -/
def setColumnArray (t : Table) (c : String) (vals : List Val) :
    Except Err Table :=
  match idxOf? c t.colLabels with
  | none => .error .keyError
  | some k =>
      if vals.length = t.rowLabels.length then
        .ok { t with cols := t.cols.set k vals }
      else .error .shapeError

/-- The kind of a scalar, used for the per-column type contract. -/
inductive ValKind where
  | naKind : ValKind
  | intKind : ValKind
  | strKind : ValKind
  deriving Repr, DecidableEq

def Val.kind : Val → ValKind
  | .na => .naKind
  | .int _ => .intKind
  | .str _ => .strKind

/-- Modelled from the spec: SetByPosition on a single cell — IndexError
when a position is out of bounds, TypeError when the value is
incompatible with the column's scalar type (here: the kind of the cell it
replaces, unless that cell is the not-available sentinel). -/
def setCellPos (t : Table) (j k : Nat) (v : Val) : Except Err Table :=
  match t.cols[k]? with
  | none => .error .indexError
  | some col =>
      match col[j]? with
      | none => .error .indexError
      | some old =>
          if old = Val.na ∨ old.kind = v.kind then
            .ok { t with cols := t.cols.set k (col.set j v) }
          else .error .typeError

/-- Modelled from the spec: the mutating and fallible operations of §4.1
used to state the synchronous, all-or-nothing error contract of §7. -/
inductive Op where
  | setColumn : String → List Val → Op
  | setCell : Nat → Nat → Val → Op
  | labelRange : String → String → Op

/-- Dispatch one operation against a table. -/
def applyOp (t : Table) : Op → Except Err Table
  | .setColumn c vals => setColumnArray t c vals
  | .setCell j k v => setCellPos t j k v
  | .labelRange lo hi => selectByLabelRange t lo hi

/-- Modelled from the spec: synchronous execution — every operation runs
to completion at the call; on an error the table kept by the caller is
the one from before the call (no internal retry or recovery). -/
def runOp (t : Table) (op : Op) : Table × Option Err :=
  match applyOp t op with
  | .ok u => (u, none)
  | .error e => (t, some e)

/-- Modelled from the spec: a store of live tables, identified by index,
used to state the no-aliasing contract of Copy. -/
abbrev Store := List Table

/-- Copy allocates a fresh table in the store, leaving the source in
place, and returns the fresh index. -/
def copyAlloc (h : Store) (i : Nat) : Store × Nat :=
  (h ++ [(h.getD i emptyTable).copy], h.length)

/-- In-place mutation of the table stored at index `j`. -/
def mutateAt (h : Store) (j : Nat) (f : Table → Table) : Store :=
  h.set j (f (h.getD j emptyTable))

/-- Modelled from the spec: the argument kinds accepted by the overloaded
single-bracket selection operator — a column label, or an integer slice
over row positions. -/
inductive Sel where
  | label : String → Sel
  | posRange : Nat → Nat → Sel

/-- The two result shapes of single-bracket selection. -/
inductive SelResult where
  | series : Series → SelResult
  | table : Table → SelResult
  deriving Repr, DecidableEq

/-- Modelled from the spec: the overloaded single-bracket selection
operator — a column label selects that column as a Series; an integer
slice selects the rows in the half-open positional range. -/
def getItem (t : Table) : Sel → Except Err SelResult
  | .label c => (selectColumn t c).map .series
  | .posRange lo hi => .ok (.table (selectByPositionRange t lo hi))

/-! ### Helper lemmas -/

theorem idxOf?_getElem {lbl : String} :
    ∀ {l : List String} {i : Nat}, idxOf? lbl l = some i → l[i]? = some lbl := by
  intro l
  induction l with
  | nil => intro i h; simp [idxOf?] at h
  | cons x xs ih =>
      intro i h
      by_cases hx : x = lbl
      · simp [idxOf?, hx] at h
        subst h; simp [hx]
      · simp [idxOf?, hx] at h
        obtain ⟨m, hm, rfl⟩ := h
        simpa using ih hm

theorem slice_getElem {α : Type} (l : List α) (a b p : Nat)
    (hap : a ≤ p) (hpb : p < b) :
    ((l.drop a).take (b - a))[p - a]? = l[p]? := by
  rw [List.getElem?_take]
  have h1 : p - a < b - a := by omega
  simp only [h1, if_true]
  rw [List.getElem?_drop]
  congr 1
  omega

theorem mem_slice {α : Type} {l : List α} {a n : Nat} {x : α} :
    x ∈ (l.drop a).take n ↔ ∃ p, a ≤ p ∧ p < a + n ∧ l[p]? = some x := by
  constructor
  · intro hx
    obtain ⟨k, hk⟩ := List.mem_iff_getElem?.mp hx
    rw [List.getElem?_take] at hk
    by_cases hkn : k < n
    · simp only [hkn, if_true, List.getElem?_drop] at hk
      exact ⟨a + k, by omega, by omega, hk⟩
    · simp [hkn] at hk
  · rintro ⟨p, hap, hpn, hp⟩
    apply List.mem_iff_getElem?.mpr
    refine ⟨p - a, ?_⟩
    rw [List.getElem?_take]
    have h1 : p - a < n := by omega
    simp only [h1, if_true, List.getElem?_drop]
    rwa [Nat.add_sub_cancel' hap]

/-! ### C1: label ranges include both endpoints, positional ranges are half-open -/

/-- C1: For every table, label-based range selection `SelectByLabel(lo..hi)`
returns the rows for both endpoint labels `lo` and `hi` when they are
present, while position-based range selection `SelectByPosition(lo..hi)`
keeps exactly the rows at positions `lo..hi-1` (the row at position `p`
of the range sits at offset `p - lo` of the result) and never the row at
position `hi`. -/
theorem c1_range_selection (t : Table) (lo hi : String) (i j : Nat)
    (hNd : t.rowLabels.Nodup)
    (hlo : idxOf? lo t.rowLabels = some i)
    (hhi : idxOf? hi t.rowLabels = some j)
    (hij : i ≤ j) :
    (∃ res, selectByLabelRange t lo hi = .ok res ∧
       lo ∈ res.rowLabels ∧ hi ∈ res.rowLabels) ∧
    (∀ a b p, a ≤ p → p < b →
       ((selectByPositionRange t a b).rowLabels)[p - a]? = t.rowLabels[p]?) ∧
    (∀ a b x, t.rowLabels[b]? = some x →
       x ∉ (selectByPositionRange t a b).rowLabels) := by
  have part2 : ∀ a b p, a ≤ p → p < b →
      ((selectByPositionRange t a b).rowLabels)[p - a]? = t.rowLabels[p]? := by
    intro a b p hap hpb
    exact slice_getElem t.rowLabels a b p hap hpb
  have part3 : ∀ a b x, t.rowLabels[b]? = some x →
      x ∉ (selectByPositionRange t a b).rowLabels := by
    intro a b x hb hmem
    obtain ⟨p, hap, hpn, hp⟩ := mem_slice.mp hmem
    have hpb : p < b := by omega
    have hplen : p < t.rowLabels.length := (List.getElem?_eq_some.mp hp).1
    have : p = b := List.getElem?_inj hplen hNd (hp.trans hb.symm)
    omega
  refine ⟨?_, part2, part3⟩
  refine ⟨selectByPositionRange t i (j + 1), ?_, ?_, ?_⟩
  · simp [selectByLabelRange, hlo, hhi]
  · apply List.mem_iff_getElem?.mpr
    exact ⟨i - i, (part2 i (j + 1) i le_rfl (by omega)).trans (idxOf?_getElem hlo)⟩
  · apply List.mem_iff_getElem?.mpr
    exact ⟨j - i, (part2 i (j + 1) j hij (by omega)).trans (idxOf?_getElem hhi)⟩

/-- A small concrete table used by witnesses. -/
def dfW : Table :=
  { rowLabels := ["r0", "r1", "r2", "r3"]
    colLabels := ["A"]
    cols := [[Val.int 10, Val.int 11, Val.int 12, Val.int 13]] }

/-- Witness for C1 at a concrete four-row table, with `lo` at position 1
and `hi` at position 2. -/
theorem c1_range_selection_witness :
    (dfW.rowLabels.Nodup ∧ idxOf? "r1" dfW.rowLabels = some 1 ∧
      idxOf? "r2" dfW.rowLabels = some 2 ∧ 1 ≤ 2) ∧
    ((∃ res, selectByLabelRange dfW "r1" "r2" = .ok res ∧
        "r1" ∈ res.rowLabels ∧ "r2" ∈ res.rowLabels) ∧
     (∀ a b p, a ≤ p → p < b →
        ((selectByPositionRange dfW a b).rowLabels)[p - a]? = dfW.rowLabels[p]?) ∧
     (∀ a b x, dfW.rowLabels[b]? = some x →
        x ∉ (selectByPositionRange dfW a b).rowLabels)) :=
  ⟨⟨by decide, by decide, by decide, by decide⟩,
    c1_range_selection dfW "r1" "r2" 1 2 (by decide) (by decide) (by decide)
      (by decide)⟩

/-! ### Label-lookup helper lemmas -/

theorem idxOf?_eq_none_iff {lbl : String} :
    ∀ {l : List String}, idxOf? lbl l = none ↔ lbl ∉ l := by
  intro l
  induction l with
  | nil => simp [idxOf?]
  | cons x xs ih =>
      by_cases hx : x = lbl
      · simp [idxOf?, hx]
      · rw [idxOf?, if_neg hx]
        cases h : idxOf? lbl xs with
        | none =>
            have hns := ih.mp h
            simp [List.mem_cons, hns]
            exact fun hc => hx hc.symm
        | some i =>
            have hmem : lbl ∈ xs :=
              List.mem_iff_getElem?.mpr ⟨i, idxOf?_getElem h⟩
            simp [List.mem_cons, hmem]

theorem idxOf?_isSome_of_mem {lbl : String} {l : List String} (h : lbl ∈ l) :
    ∃ i, idxOf? lbl l = some i := by
  cases hi : idxOf? lbl l with
  | none => exact absurd h (idxOf?_eq_none_iff.mp hi)
  | some i => exact ⟨i, rfl⟩

theorem idxOf?_append_self {lbl : String} :
    ∀ {l : List String}, lbl ∉ l → idxOf? lbl (l ++ [lbl]) = some l.length := by
  intro l
  induction l with
  | nil => simp [idxOf?]
  | cons x xs ih =>
      intro h
      have hx : x ≠ lbl := fun hc => h (hc ▸ List.mem_cons_self x xs)
      have hxs : lbl ∉ xs := fun hc => h (List.mem_cons_of_mem x hc)
      simp [idxOf?, hx, ih hxs]

theorem idxOf?_lt_length {lbl : String} {l : List String} {i : Nat}
    (h : idxOf? lbl l = some i) : i < l.length :=
  (List.getElem?_eq_some.mp (idxOf?_getElem h)).1

/-! ### C2 and C8: label-aligned column assignment -/

theorem colOf?_assignColumn (t : Table) (s : Series) (c : String)
    (hwf : t.WF) :
    colOf? (assignColumn t c s) c = some (t.rowLabels.map s.lookup) := by
  cases h : idxOf? c t.colLabels with
  | some k =>
      have hk : k < t.cols.length := hwf.1 ▸ idxOf?_lt_length h
      simp [assignColumn, colOf?, h, List.getElem?_set_eq_of_lt _ hk]
  | none =>
      have hc : c ∉ t.colLabels := idxOf?_eq_none_iff.mp h
      have hlen : t.colLabels.length = t.cols.length := hwf.1.symm
      simp [assignColumn, colOf?, h, idxOf?_append_self hc, hlen,
        List.getElem?_concat_length]

theorem rowLabels_assignColumn (t : Table) (s : Series) (c : String) :
    (assignColumn t c s).rowLabels = t.rowLabels := by
  unfold assignColumn
  cases idxOf? c t.colLabels <;> simp

theorem cellAt_assignColumn (t : Table) (s : Series) (c rl : String)
    (hwf : t.WF) (hrl : rl ∈ t.rowLabels) :
    cellAt (assignColumn t c s) rl c = some (s.lookup rl) := by
  obtain ⟨jr, hjr⟩ := idxOf?_isSome_of_mem hrl
  have hget := idxOf?_getElem hjr
  simp [cellAt, rowLabels_assignColumn, hjr, colOf?_assignColumn t s c hwf,
    List.getElem?_map, hget]

/-- Concrete table for the notebook's setting example: six date-labelled
rows with one numeric column. -/
def dfC2 : Table :=
  { rowLabels := ["2013-01-01", "2013-01-02", "2013-01-03",
                  "2013-01-04", "2013-01-05", "2013-01-06"]
    colLabels := ["A"]
    cols := [[Val.int 10, Val.int 20, Val.int 30,
              Val.int 40, Val.int 50, Val.int 60]] }

/-- Concrete series for the notebook's setting example: six entries with
values 1..6 whose labels start one day after the table's first row. -/
def s1C2 : Series :=
  { labels := ["2013-01-02", "2013-01-03", "2013-01-04",
               "2013-01-05", "2013-01-06", "2013-01-07"]
    values := [Val.int 1, Val.int 2, Val.int 3,
               Val.int 4, Val.int 5, Val.int 6] }

/-- C2: AssignColumn aligns by label — every table row label present in
the incoming series receives the series value for that label, every table
row label absent from the series is set to not-available; and on the
concrete six-date table assigned the notebook's series of values 1..6,
the new column holds not-available at the first date and 1 at the
second. -/
theorem c2_assign_label_alignment (t : Table) (s : Series) (c : String)
    (hwf : t.WF) :
    (∀ rl i v, rl ∈ t.rowLabels → idxOf? rl s.labels = some i →
       s.values[i]? = some v →
       cellAt (assignColumn t c s) rl c = some v) ∧
    (∀ rl, rl ∈ t.rowLabels → rl ∉ s.labels →
       cellAt (assignColumn t c s) rl c = some Val.na) ∧
    (cellAt (assignColumn dfC2 "F" s1C2) "2013-01-01" "F" = some Val.na ∧
     cellAt (assignColumn dfC2 "F" s1C2) "2013-01-02" "F" =
       some (Val.int 1)) := by
  refine ⟨?_, ?_, by decide, by decide⟩
  · intro rl i v hrl hi hv
    rw [cellAt_assignColumn t s c rl hwf hrl]
    simp [Series.lookup, hi, hv]
  · intro rl hrl hns
    rw [cellAt_assignColumn t s c rl hwf hrl]
    simp [Series.lookup, idxOf?_eq_none_iff.mpr hns]

/-- Witness for C2 at the notebook's concrete table and series: the
second date is covered by the series (value 1), the first date is not. -/
theorem c2_assign_label_alignment_witness :
    dfC2.WF ∧
    (cellAt (assignColumn dfC2 "F" s1C2) "2013-01-02" "F" =
       some (Val.int 1) ∧
     cellAt (assignColumn dfC2 "F" s1C2) "2013-01-01" "F" = some Val.na) :=
  ⟨by decide,
   (c2_assign_label_alignment dfC2 s1C2 "F" (by decide)).1 "2013-01-02" 0
     (Val.int 1) (by decide) (by decide) (by decide),
   (c2_assign_label_alignment dfC2 s1C2 "F" (by decide)).2.1 "2013-01-01"
     (by decide) (by decide)⟩

/-- C8: AssignColumn never changes the table's row-label sequence or row
count; series labels absent from the table (the notebook's seventh date
2013-01-07) are discarded rather than appended as rows. -/
theorem c8_assign_preserves_row_axis (t : Table) (c : String) (s : Series) :
    (assignColumn t c s).rowLabels = t.rowLabels ∧
    (assignColumn t c s).rowLabels.length = t.rowLabels.length ∧
    ("2013-01-07" ∈ s1C2.labels ∧
     "2013-01-07" ∉ dfC2.rowLabels ∧
     (assignColumn dfC2 "F" s1C2).rowLabels = dfC2.rowLabels ∧
     "2013-01-07" ∉ (assignColumn dfC2 "F" s1C2).rowLabels) := by
  refine ⟨rowLabels_assignColumn t s c, ?_, by decide, by decide, ?_, by decide⟩
  · rw [rowLabels_assignColumn t s c]
  · exact rowLabels_assignColumn dfC2 s1C2 "F"

/-! ### C3 and C9: construction invariant and scalar broadcast -/

theorem constructDict_ok {entries : List (String × ColInput)} {u : Table}
    (h : constructDict entries = .ok u) :
    ∃ n rest, entries.filterMap (fun e => e.2.len?) = n :: rest ∧
      (∀ m ∈ rest, m = n) ∧
      u = { rowLabels := (List.range n).map toString
            colLabels := entries.map (·.1)
            cols := entries.map (fun e => e.2.materialize n) } := by
  unfold constructDict at h
  split at h
  · cases h
  · rename_i n rest heq
    split at h
    · rename_i hall
      refine ⟨n, rest, heq, ?_, ?_⟩
      · intro m hm
        simpa using List.all_eq_true.mp hall m hm
      · cases h
        rfl
    · cases h

theorem constructDict_cols_len {entries : List (String × ColInput)}
    {u : Table} (h : constructDict entries = .ok u) :
    ∀ col ∈ u.cols, col.length = u.rowLabels.length := by
  obtain ⟨n, rest, heq, hall, rfl⟩ := constructDict_ok h
  intro col hcol
  simp only [List.mem_map] at hcol
  obtain ⟨e, he, rfl⟩ := hcol
  simp only [List.length_map, List.length_range]
  cases hinp : e.2 with
  | scalar v => simp [ColInput.materialize, hinp]
  | seq vs =>
      simp only [hinp, ColInput.materialize]
      have hmem : vs.length ∈ entries.filterMap (fun e => e.2.len?) := by
        apply List.mem_filterMap.mpr
        exact ⟨e, he, by simp [hinp, ColInput.len?]⟩
      rw [heq] at hmem
      rcases List.mem_cons.mp hmem with hh | hh
      · exact hh
      · exact hall _ hh

/-- C3: after every valid construction — from a uniform value array with
label sequences, or from a mapping of column label to column data — every
column has length equal to the number of row labels. -/
theorem c3_construction_invariant (vals : List (List Val))
    (rls cls : List String) (entries : List (String × ColInput))
    (t u : Table)
    (h1 : constructArray vals rls cls = .ok t)
    (h2 : constructDict entries = .ok u) :
    (∀ col ∈ t.cols, col.length = t.rowLabels.length) ∧
    (∀ col ∈ u.cols, col.length = u.rowLabels.length) := by
  refine ⟨?_, constructDict_cols_len h2⟩
  unfold constructArray at h1
  split at h1
  · rename_i hcond
    cases h1
    intro col hcol
    simp only [List.mem_map] at hcol
    obtain ⟨k, _, rfl⟩ := hcol
    simp [hcond.1]
  · cases h1

/-- Concrete tables for the constructor witnesses. -/
def dfC3a : Table :=
  { rowLabels := ["r0", "r1"]
    colLabels := ["A", "B"]
    cols := [[Val.int 1, Val.int 3], [Val.int 2, Val.int 4]] }

/-- The notebook's dict-constructor entries: scalars A, B, F broadcast
next to three length-4 sequences C, D, E. -/
def entriesC9 : List (String × ColInput) :=
  [("A", ColInput.scalar (Val.int 1)),
   ("B", ColInput.scalar (Val.str "2013-01-02")),
   ("C", ColInput.seq [Val.int 1, Val.int 1, Val.int 1, Val.int 1]),
   ("D", ColInput.seq [Val.int 3, Val.int 3, Val.int 3, Val.int 3]),
   ("E", ColInput.seq [Val.str "test", Val.str "train",
                       Val.str "test", Val.str "train"]),
   ("F", ColInput.scalar (Val.str "foo"))]

/-- The table the dict constructor builds from `entriesC9`. -/
def dfC9 : Table :=
  { rowLabels := ["0", "1", "2", "3"]
    colLabels := ["A", "B", "C", "D", "E", "F"]
    cols := [[Val.int 1, Val.int 1, Val.int 1, Val.int 1],
             [Val.str "2013-01-02", Val.str "2013-01-02",
              Val.str "2013-01-02", Val.str "2013-01-02"],
             [Val.int 1, Val.int 1, Val.int 1, Val.int 1],
             [Val.int 3, Val.int 3, Val.int 3, Val.int 3],
             [Val.str "test", Val.str "train", Val.str "test",
              Val.str "train"],
             [Val.str "foo", Val.str "foo", Val.str "foo", Val.str "foo"]] }

/-- Witness for C3: a 2×2 array construction and the notebook's dict
construction both yield tables whose columns all have the row count as
their length. -/
theorem c3_construction_invariant_witness :
    (constructArray [[Val.int 1, Val.int 2], [Val.int 3, Val.int 4]]
        ["r0", "r1"] ["A", "B"] = .ok dfC3a ∧
     constructDict entriesC9 = .ok dfC9) ∧
    ((∀ col ∈ dfC3a.cols, col.length = dfC3a.rowLabels.length) ∧
     (∀ col ∈ dfC9.cols, col.length = dfC9.rowLabels.length)) :=
  ⟨⟨by rfl, by rfl⟩,
   c3_construction_invariant
     [[Val.int 1, Val.int 2], [Val.int 3, Val.int 4]] ["r0", "r1"]
     ["A", "B"] entriesC9 dfC3a dfC9 (by rfl) (by rfl)⟩

/-- C9: in the dict constructor, a scalar entry at position `k` is
broadcast to a full column of the common sequence length, and every
resulting column has that same length. -/
theorem c9_scalar_broadcast (entries : List (String × ColInput))
    (u : Table) (k : Nat) (c : String) (v : Val)
    (h : constructDict entries = .ok u)
    (hk : entries[k]? = some (c, ColInput.scalar v)) :
    u.cols[k]? = some (List.replicate u.rowLabels.length v) ∧
    ∀ col ∈ u.cols, col.length = u.rowLabels.length := by
  refine ⟨?_, constructDict_cols_len h⟩
  obtain ⟨n, rest, heq, hall, rfl⟩ := constructDict_ok h
  simp only [List.getElem?_map, hk, Option.map_some', List.length_map,
    List.length_range, ColInput.materialize]

/-- Witness for C9: in the notebook's dict construction the scalar entry
`F = foo` (position 5) becomes a column of four copies of foo. -/
theorem c9_scalar_broadcast_witness :
    (constructDict entriesC9 = .ok dfC9 ∧
     entriesC9[5]? = some ("F", ColInput.scalar (Val.str "foo"))) ∧
    (dfC9.cols[5]? =
       some (List.replicate dfC9.rowLabels.length (Val.str "foo")) ∧
     ∀ col ∈ dfC9.cols, col.length = dfC9.rowLabels.length) :=
  ⟨⟨by rfl, by decide⟩,
   c9_scalar_broadcast entriesC9 dfC9 5 "F" (Val.str "foo") (by rfl)
     (by decide)⟩

/-! ### C5: membership filtering -/

theorem maskFilter_mask236 {α : Type} (l : List α) (h : l.length = 6) :
    maskFilter [false, false, true, false, true, false] l =
      [l.get ⟨2, by omega⟩, l.get ⟨4, by omega⟩] := by
  rcases l with _ | ⟨a, _ | ⟨b, _ | ⟨c, _ | ⟨d, _ | ⟨e, _ | ⟨f, _ | ⟨g, l⟩⟩⟩⟩⟩⟩⟩ <;>
    first
      | rfl
      | simp at h

/-- C5: on a table whose column E holds `[one, one, two, three, four,
three]` in row order, filtering by membership in `{two, four}` keeps
exactly the rows at zero-based positions 2 and 4: the resulting row
labels are the originals at positions 2 and 4, and every column is
reduced to its cells at positions 2 and 4. -/
theorem c5_filter_membership (t : Table) (k : Nat)
    (hk : idxOf? "E" t.colLabels = some k)
    (hcol : t.cols[k]? = some [Val.str "one", Val.str "one", Val.str "two",
      Val.str "three", Val.str "four", Val.str "three"])
    (hlen : t.rowLabels.length = 6) :
    ∃ res,
      filterByMembership t "E" [Val.str "two", Val.str "four"] = .ok res ∧
      res.rowLabels =
        [t.rowLabels.get ⟨2, by omega⟩, t.rowLabels.get ⟨4, by omega⟩] ∧
      res.colLabels = t.colLabels ∧
      ∀ (k2 : Nat) (col : List Val), t.cols[k2]? = some col →
        ∀ h6 : col.length = 6,
        res.cols[k2]? = some [col.get ⟨2, by omega⟩, col.get ⟨4, by omega⟩] := by
  have hmask : ([Val.str "one", Val.str "one", Val.str "two",
      Val.str "three", Val.str "four", Val.str "three"].map
        (fun v => decide (v ∈ [Val.str "two", Val.str "four"]))) =
      [false, false, true, false, true, false] := rfl
  refine ⟨{ rowLabels := maskFilter [false, false, true, false, true, false]
              t.rowLabels
            colLabels := t.colLabels
            cols := t.cols.map
              (maskFilter [false, false, true, false, true, false]) },
    ?_, ?_, rfl, ?_⟩
  · simp [filterByMembership, hk, hcol, hmask]
  · exact maskFilter_mask236 t.rowLabels hlen
  · intro k2 col hk2 h6
    simp only [List.getElem?_map, hk2, Option.map_some']
    rw [maskFilter_mask236 col h6]

/-- Concrete table for the C5 witness: the notebook's `df2` with its E
column of six category strings. -/
def dfC5 : Table :=
  { rowLabels := ["r0", "r1", "r2", "r3", "r4", "r5"]
    colLabels := ["A", "E"]
    cols := [[Val.int 0, Val.int 1, Val.int 2, Val.int 3, Val.int 4,
              Val.int 5],
             [Val.str "one", Val.str "one", Val.str "two", Val.str "three",
              Val.str "four", Val.str "three"]] }

/-- Witness for C5 at the concrete six-row table. -/
theorem c5_filter_membership_witness :
    (idxOf? "E" dfC5.colLabels = some 1 ∧
     dfC5.cols[1]? = some [Val.str "one", Val.str "one", Val.str "two",
       Val.str "three", Val.str "four", Val.str "three"] ∧
     dfC5.rowLabels.length = 6) ∧
    (∃ res,
      filterByMembership dfC5 "E" [Val.str "two", Val.str "four"] =
        .ok res ∧
      res.rowLabels = [dfC5.rowLabels.get ⟨2, by decide⟩,
        dfC5.rowLabels.get ⟨4, by decide⟩] ∧
      res.colLabels = dfC5.colLabels ∧
      ∀ (k2 : Nat) (col : List Val), dfC5.cols[k2]? = some col →
        ∀ h6 : col.length = 6,
        res.cols[k2]? =
          some [col.get ⟨2, by omega⟩, col.get ⟨4, by omega⟩]) :=
  ⟨⟨by decide, by decide, by decide⟩,
   c5_filter_membership dfC5 1 (by decide) (by decide) (by decide)⟩

/-! ### C6: transposing twice restores labels and values -/

theorem Table.copy_id (t : Table) : t.copy = t := by
  simp [Table.copy]

/-- C6: Transpose is an involution up to observation — the double
transpose has the same row-label sequence, the same column-label
sequence, and the same scalar at every (row label, column label) address
as the original table. -/
theorem c6_transpose_involutive (t : Table) (hwf : t.WF) :
    (transpose (transpose t)).rowLabels = t.rowLabels ∧
    (transpose (transpose t)).colLabels = t.colLabels ∧
    ∀ rl c, cellAt (transpose (transpose t)) rl c = cellAt t rl c := by
  refine ⟨rfl, rfl, ?_⟩
  intro rl c
  cases hj : idxOf? rl t.rowLabels with
  | none => simp [cellAt, transpose, hj]
  | some j =>
      cases hk : idxOf? c t.colLabels with
      | none => simp [cellAt, colOf?, transpose, hj, hk]
      | some k =>
          have hjlen : j < t.rowLabels.length := idxOf?_lt_length hj
          have hklen : k < t.colLabels.length := idxOf?_lt_length hk
          have hkcols : k < t.cols.length := by
            rw [hwf.1]; exact hklen
          have hcol0 : t.cols[k]? = some t.cols[k] :=
            List.getElem?_eq_getElem hkcols
          have hcol0len : (t.cols[k]).length = t.rowLabels.length :=
            hwf.2 _ (List.getElem_mem hkcols)
          have hjcol : j < (t.cols[k]).length := by omega
          have hv : (t.cols[k])[j]? = some (t.cols[k])[j] :=
            List.getElem?_eq_getElem hjcol
          simp [cellAt, colOf?, transpose, hj, hk, List.getElem?_map,
            List.getElem?_range, hjlen, hklen, hcol0, hv]

/-- Witness for C6 at a concrete well-formed table. -/
theorem c6_transpose_involutive_witness :
    dfW.WF ∧
    ((transpose (transpose dfW)).rowLabels = dfW.rowLabels ∧
     (transpose (transpose dfW)).colLabels = dfW.colLabels ∧
     ∀ rl c, cellAt (transpose (transpose dfW)) rl c = cellAt dfW rl c) :=
  ⟨by decide, c6_transpose_involutive dfW (by decide)⟩

/-! ### C7: Copy shares no backing storage with its source -/

/-- C7: Copy returns a table with the same contents whose subsequent
mutation — by any table-to-table transformation applied in the store —
leaves every cell and label of the original unchanged. -/
theorem c7_copy_no_aliasing (h : Store) (i : Nat) (f : Table → Table)
    (hi : i < h.length) :
    (copyAlloc h i).1.getD (copyAlloc h i).2 emptyTable = h.getD i emptyTable ∧
    (copyAlloc h i).2 ≠ i ∧
    (mutateAt (copyAlloc h i).1 (copyAlloc h i).2 f).getD i emptyTable =
      h.getD i emptyTable := by
  refine ⟨?_, by simp [copyAlloc]; omega, ?_⟩
  · simp [copyAlloc, List.getD_eq_getElem?_getD, List.getElem?_concat_length,
      Table.copy_id]
  · have hne : h.length ≠ i := by omega
    simp only [copyAlloc, mutateAt, List.getD_eq_getElem?_getD,
      List.getElem?_set_ne hne]
    rw [List.getElem?_append]
    simp [hi]

/-- Witness for C7: a one-table store; mutating the copy (clearing all its
columns) leaves the original table intact. -/
theorem c7_copy_no_aliasing_witness :
    (0 < ([dfW] : Store).length) ∧
    ((copyAlloc [dfW] 0).1.getD (copyAlloc [dfW] 0).2 emptyTable =
       ([dfW] : Store).getD 0 emptyTable ∧
     (copyAlloc [dfW] 0).2 ≠ 0 ∧
     (mutateAt (copyAlloc [dfW] 0).1 (copyAlloc [dfW] 0).2
         (fun t => { t with cols := [] })).getD 0 emptyTable =
       ([dfW] : Store).getD 0 emptyTable) :=
  ⟨by decide,
   c7_copy_no_aliasing [dfW] 0 (fun t => { t with cols := [] }) (by decide)⟩

/-! ### C4: errors are synchronous and all-or-nothing -/

/-- C4: every operation either completes or reports its error at the call
itself, and a failing call leaves the table exactly as it was: whenever
`runOp` reports an error the resulting state equals the input state; in
particular a bulk column assignment with a wrong-length array reports
ShapeError, an unmatched label reports KeyError, an out-of-range position
reports IndexError, and an incompatible value reports TypeError — each
without applying any write. -/
theorem c4_errors_all_or_nothing (t : Table) (op : Op) (e : Err)
    (h : (runOp t op).2 = some e) :
    (runOp t op).1 = t ∧
    (∀ (c : String) (vals : List Val) (k : Nat),
       idxOf? c t.colLabels = some k →
       vals.length ≠ t.rowLabels.length →
       runOp t (Op.setColumn c vals) = (t, some Err.shapeError)) ∧
    (∀ lo hi : String, idxOf? lo t.rowLabels = none →
       runOp t (Op.labelRange lo hi) = (t, some Err.keyError)) ∧
    (∀ (j k : Nat) (v : Val), t.cols[k]? = none →
       runOp t (Op.setCell j k v) = (t, some Err.indexError)) ∧
    (∀ (j k : Nat) (v : Val) (col : List Val) (old : Val),
       t.cols[k]? = some col → col[j]? = some old →
       ¬(old = Val.na ∨ old.kind = v.kind) →
       runOp t (Op.setCell j k v) = (t, some Err.typeError)) := by
  refine ⟨?_, ?_, ?_, ?_, ?_⟩
  · unfold runOp at h ⊢
    cases happ : applyOp t op with
    | ok u => rw [happ] at h; simp at h
    | error e2 => rfl
  · intro c vals k hk hlen
    simp [runOp, applyOp, setColumnArray, hk, hlen]
  · intro lo hi hlo
    simp [runOp, applyOp, selectByLabelRange, hlo]
  · intro j k v hk
    simp [runOp, applyOp, setCellPos, hk]
  · intro j k v col old hk hj hbad
    simp [runOp, applyOp, setCellPos, hk, hj, hbad]

/-- Witness for C4: assigning a too-short array to column A of the
concrete table fails with ShapeError and leaves the table untouched. -/
theorem c4_errors_all_or_nothing_witness :
    ((runOp dfW (Op.setColumn "A" [Val.int 0])).2 = some Err.shapeError) ∧
    ((runOp dfW (Op.setColumn "A" [Val.int 0])).1 = dfW ∧
     (∀ (c : String) (vals : List Val) (k : Nat),
        idxOf? c dfW.colLabels = some k →
        vals.length ≠ dfW.rowLabels.length →
        runOp dfW (Op.setColumn c vals) = (dfW, some Err.shapeError)) ∧
     (∀ lo hi : String, idxOf? lo dfW.rowLabels = none →
        runOp dfW (Op.labelRange lo hi) = (dfW, some Err.keyError)) ∧
     (∀ (j k : Nat) (v : Val), dfW.cols[k]? = none →
        runOp dfW (Op.setCell j k v) = (dfW, some Err.indexError)) ∧
     (∀ (j k : Nat) (v : Val) (col : List Val) (old : Val),
        dfW.cols[k]? = some col → col[j]? = some old →
        ¬(old = Val.na ∨ old.kind = v.kind) →
        runOp dfW (Op.setCell j k v) = (dfW, some Err.typeError))) :=
  ⟨by decide,
   c4_errors_all_or_nothing dfW (Op.setColumn "A" [Val.int 0])
     Err.shapeError (by decide)⟩

/-! ### C10: the single-bracket operator is overloaded by argument kind -/

/-- C10: single-bracket selection dispatches on its argument — a column
label yields that column as a Series carrying the table's row labels,
while an integer slice yields the table of rows in the half-open
positional range (so `df[0:3]` keeps positions 0, 1, 2); on the concrete
four-row table the slice `0:3` keeps exactly the first three row
labels. -/
theorem c10_getitem_overload (t : Table) (c : String) (k : Nat)
    (col : List Val)
    (hk : idxOf? c t.colLabels = some k)
    (hcol : t.cols[k]? = some col) :
    (getItem t (Sel.label c) = .ok (.series ⟨t.rowLabels, col⟩)) ∧
    (∀ lo hi, ∃ res, getItem t (Sel.posRange lo hi) = .ok (.table res) ∧
       res.colLabels = t.colLabels ∧
       res.rowLabels.length = min (hi - lo) (t.rowLabels.length - lo) ∧
       (∀ p, lo ≤ p → p < hi → res.rowLabels[p - lo]? = t.rowLabels[p]?)) ∧
    ((selectByPositionRange dfW 0 3).rowLabels = ["r0", "r1", "r2"] ∧
     getItem dfW (Sel.posRange 0 3) =
       .ok (.table (selectByPositionRange dfW 0 3))) := by
  refine ⟨?_, ?_, by decide, rfl⟩
  · simp [getItem, selectColumn, hk, hcol, Except.map]
  · intro lo hi
    refine ⟨selectByPositionRange t lo hi, rfl, rfl, ?_, ?_⟩
    · simp [selectByPositionRange, List.length_take, List.length_drop]
    · intro p hlop hphi
      exact slice_getElem t.rowLabels lo hi p hlop hphi

/-- Witness for C10: on the concrete table, `A` selects a Series and the
slice `0:3` keeps rows 0, 1, 2. -/
theorem c10_getitem_overload_witness :
    (idxOf? "A" dfW.colLabels = some 0 ∧
     dfW.cols[0]? =
       some [Val.int 10, Val.int 11, Val.int 12, Val.int 13]) ∧
    ((getItem dfW (Sel.label "A") =
        .ok (.series ⟨dfW.rowLabels,
          [Val.int 10, Val.int 11, Val.int 12, Val.int 13]⟩)) ∧
     (∀ lo hi, ∃ res, getItem dfW (Sel.posRange lo hi) =
          .ok (.table res) ∧
        res.colLabels = dfW.colLabels ∧
        res.rowLabels.length = min (hi - lo) (dfW.rowLabels.length - lo) ∧
        (∀ p, lo ≤ p → p < hi →
          res.rowLabels[p - lo]? = dfW.rowLabels[p]?)) ∧
     ((selectByPositionRange dfW 0 3).rowLabels = ["r0", "r1", "r2"] ∧
      getItem dfW (Sel.posRange 0 3) =
        .ok (.table (selectByPositionRange dfW 0 3)))) :=
  ⟨⟨by decide, by decide⟩,
   c10_getitem_overload dfW "A" 0
     [Val.int 10, Val.int 11, Val.int 12, Val.int 13] (by decide)
     (by decide)⟩
